import Mathlib

set_option maxHeartbeats 1000000

/- Shallow embedding of the rucio judge-evaluator daemon
   (lib/rucio/daemons/judge/evaluator.py) and of the database session layer
   (lib/rucio/db/session.py).  Pure data and control flow are translated
   directly from the Python source; external collaborators (the database
   hash primitives, the evaluation capability re_evaluate_did, the clock,
   the metrics sinks) are parameters of the embedding. -/

/-! ## Data model (models.UpdatedDID rows fetched by the evaluator query) -/

/-- UpdatedDID models one row of the updated_dids work queue: the natural key
(scope, name), the requested rule_evaluation_action and the created_at
ordering timestamp (used only by the ORDER BY of the fetch query). -/
structure UpdatedDID where
  scope : String
  name : String
  rule_evaluation_action : String
  created_at : Nat
deriving DecidableEq

/-- didKey models the dictionary key built by re_evaluator with the
percent-format expression producing the string scope:name. -/
def didKey (d : UpdatedDID) : String := d.scope ++ ":" ++ d.name

/-- keyAct is the pair (scope:name key, rule_evaluation_action) describing
what the duplicate check of re_evaluator compares. -/
def keyAct (d : UpdatedDID) : String × String := (didKey d, d.rule_evaluation_action)

/-! ## Work partitioner (evaluator.py lines 56-64) -/

/-- total_workers models the expression total_processes*threads_per_process-1
computed by re_evaluator (Python int arithmetic; the subtraction never goes
below -1 and the value is only compared against 0 and used with arguments
that keep it nonnegative, so Nat subtraction is adequate). -/
def total_workers (total_processes threads_per_process : Nat) : Nat :=
  total_processes * threads_per_process - 1

/-- worker_number models the expression process*threads_per_process+thread. -/
def worker_number (process threads_per_process thread : Nat) : Nat :=
  process * threads_per_process + thread

/-- partitionFilter models the dialect dispatch of re_evaluator that attaches
a hash filter clause to the fetch query.  The argument h stands for the value
of the backend hash primitive applied to name: ORA_HASH for oracle (whose
second argument is the maximum bucket, so passing tw yields a bucket in the
range 0..tw, i.e. a residue modulo tw+1), the numeric coercion of md5 for
mysql, and the absolute value of the 32-bit reinterpretation of md5 for
postgresql (both reduced modulo tw by the SQL mod call the code builds).
The hash primitives are database builtins, not code of this repository;
modelled from the spec (a stable hash of name) as an arbitrary natural
number.  A result of none means the code attaches no filter clause for this
dialect. -/
def partitionFilter (dialect : String) (tw wn h : Nat) : Option Bool :=
  if dialect = "oracle" then some (h % (tw + 1) == wn)
  else if dialect = "mysql" then some (h % tw == wn)
  else if dialect = "postgresql" then some (h % tw == wn)
  else none

/-- queryVisible models whether a row whose name hashes to h can be returned
by the fetch query of the worker: the filter is attached only when
total_processes*threads_per_process-1 > 0, and a missing filter clause (none)
leaves the row visible. -/
def queryVisible (dialect : String) (total_processes threads_per_process process thread h : Nat) :
    Bool :=
  if 0 < total_workers total_processes threads_per_process then
    (partitionFilter dialect (total_workers total_processes threads_per_process)
      (worker_number process threads_per_process thread) h).getD true
  else true

/-! ## session.py: exception taxonomy and wrap_db_error -/

/-- SqlExc models the exception values that can cross the wrappers in
session.py, one constructor per relevant position in the sqlalchemy.exc
class hierarchy: OperationalError (a subclass of DatabaseError), the other
DatabaseError subclasses (DataError, IntegrityError, ...), the DBAPIError
subclasses that are not DatabaseError (InterfaceError), the sqlalchemy
TimeoutError (a direct SQLAlchemyError subclass) and any other exception. -/
inductive SqlExc
  | operationalError (args : String)
  | databaseErrorOther (args : String)
  | dbapiErrorOther (args : String)
  | timeoutErrorExc (args : String)
  | otherError (args : String)
deriving DecidableEq

/-- isOperationalError models isinstance(e, OperationalError). -/
def isOperationalError : SqlExc → Bool
  | SqlExc.operationalError _ => true
  | _ => false

/-- isDatabaseError models isinstance(e, DatabaseError): in sqlalchemy.exc,
OperationalError derives from DatabaseError, so it is included. -/
def isDatabaseError : SqlExc → Bool
  | SqlExc.operationalError _ => true
  | SqlExc.databaseErrorOther _ => true
  | _ => false

/-- isDBAPIError models isinstance(e, DBAPIError): DatabaseError derives
from DBAPIError. -/
def isDBAPIError : SqlExc → Bool
  | SqlExc.operationalError _ => true
  | SqlExc.databaseErrorOther _ => true
  | SqlExc.dbapiErrorOther _ => true
  | _ => false

/-- excArgs models e.args[0], the message string the code inspects. -/
def excArgs : SqlExc → String
  | SqlExc.operationalError a => a
  | SqlExc.databaseErrorOther a => a
  | SqlExc.dbapiErrorOther a => a
  | SqlExc.timeoutErrorExc a => a
  | SqlExc.otherError a => a

/-- conn_err_codes is the tuple of recognized disconnect signals from
is_db_connection_error in session.py. -/
def conn_err_codes : List String :=
  ["2002", "2003", "2006",
   "ORA-00028", "ORA-01012", "ORA-03113", "ORA-03114", "ORA-03135", "ORA-25408"]

/-- listPrefix decides whether the first character list is a prefix of the
second. -/
def listPrefix : List Char → List Char → Bool
  | [], _ => true
  | _ :: _, [] => false
  | c :: cs, d :: ds => c == d && listPrefix cs ds

/-- listInfix decides whether the first character list occurs contiguously
inside the second. -/
def listInfix (pat : List Char) : List Char → Bool
  | [] => listPrefix pat []
  | d :: ds => listPrefix pat (d :: ds) || listInfix pat ds

/-- containsCode models args.find(err_code) != -1, i.e. substring
occurrence of the code in the message. -/
def containsCode (args code : String) : Bool := listInfix code.data args.data

/-- is_db_connection_error is translated from session.py: true iff any of
the recognized disconnect codes occurs in the args string. -/
def is_db_connection_error (args : String) : Bool :=
  conn_err_codes.any (fun c => containsCode args c)

/-- WrapOutcome is the observable result of one call to the function wrapped
by wrap_db_error: a returned value, a raised RucioException carrying
e.args[0], or a re-raised original exception. -/
inductive WrapOutcome (α : Type)
  | ok (v : α)
  | rucioException (args : String)
  | raised (e : SqlExc)
deriving DecidableEq

/-- retry_loop is translated from the while True retry loop inside
wrap_db_error.  f is the wrapped operation, indexed by the attempt number
(attempt 0 is the initial call made before the loop); the second argument is
the remaining_attempts budget on entry to the loop body, which the body
decrements before calling f again.  Inside the loop an OperationalError is
re-raised when the decremented budget is 0 or the error is not a recognized
disconnect; every other exception is re-raised as well (the except DBAPIError
clause and ordinary propagation).  The zero-budget case is unreachable from
wrap_db_error, which always enters with a budget of 10. -/
def retry_loop {α : Type} (f : Nat → Except SqlExc α) : Nat → Nat → WrapOutcome α
  | attempt, 0 =>
    (match f attempt with
     | Except.ok v => WrapOutcome.ok v
     | Except.error e => WrapOutcome.raised e)
  | attempt, ra + 1 =>
    match f attempt with
    | Except.ok v => WrapOutcome.ok v
    | Except.error e =>
      if isOperationalError e then
        if ra = 0 then WrapOutcome.raised e
        else if is_db_connection_error (excArgs e) = false then WrapOutcome.raised e
        else retry_loop f (attempt + 1) ra
      else WrapOutcome.raised e

/-- wrap_db_error is translated from session.py.  Python dispatches an
exception to the first matching except clause, and the clauses appear in the
order DatabaseError, OperationalError, DBAPIError; because in sqlalchemy
OperationalError is a subclass of DatabaseError, the first clause also
captures every OperationalError.  The retry budget of 10 and the 0.5s sleep
are the literals in the source (the sleep is not observable here). -/
def wrap_db_error {α : Type} (f : Nat → Except SqlExc α) : WrapOutcome α :=
  match f 0 with
  | Except.ok v => WrapOutcome.ok v
  | Except.error e =>
    if isDatabaseError e then WrapOutcome.rucioException (excArgs e)
    else if isOperationalError e then
      if is_db_connection_error (excArgs e) = false then WrapOutcome.raised e
      else retry_loop f 1 10
    else WrapOutcome.raised e

/-! ## session.py: read_session and transactional_session -/

/-- UowResult is the behaviour of the wrapped unit of work: normal return,
or raising a sqlalchemy TimeoutError, a DatabaseError, or anything else. -/
inductive UowResult
  | ok
  | timeoutRaised (msg : String)
  | dbErrRaised (msg : String)
  | otherRaised
deriving DecidableEq

/-- SessEvent records the session lifecycle calls the wrappers issue. -/
inductive SessEvent
  | commitE
  | rollbackE
  | removeE
deriving DecidableEq

/-- WrapExit is how a wrapper invocation terminates towards its caller. -/
inductive WrapExit
  | returned
  | databaseException (msg : String)
  | raisedOrig
deriving DecidableEq

/-- read_session is translated from the decorator in session.py, for the
case distinction on whether the caller already supplied a session (kwarg
lookup): with a supplied session the function runs bare; otherwise the
wrapper rolls back and raises DatabaseException on TimeoutError and on
DatabaseError, rolls back and re-raises on any other exception, and in
every case finally removes the session.  No commit is ever issued. -/
def read_session (provided : Bool) (u : UowResult) : WrapExit × List SessEvent :=
  if provided then
    (match u with
     | UowResult.ok => WrapExit.returned
     | UowResult.timeoutRaised _ => WrapExit.raisedOrig
     | UowResult.dbErrRaised _ => WrapExit.raisedOrig
     | UowResult.otherRaised => WrapExit.raisedOrig, [])
  else
    match u with
    | UowResult.ok => (WrapExit.returned, [SessEvent.removeE])
    | UowResult.timeoutRaised m =>
      (WrapExit.databaseException m, [SessEvent.rollbackE, SessEvent.removeE])
    | UowResult.dbErrRaised m =>
      (WrapExit.databaseException m, [SessEvent.rollbackE, SessEvent.removeE])
    | UowResult.otherRaised => (WrapExit.raisedOrig, [SessEvent.rollbackE, SessEvent.removeE])

/-- transactional_session is translated from session.py: identical to
read_session except that the try statement has an else clause committing the
session on success, before the finally remove. -/
def transactional_session (provided : Bool) (u : UowResult) : WrapExit × List SessEvent :=
  if provided then
    (match u with
     | UowResult.ok => WrapExit.returned
     | UowResult.timeoutRaised _ => WrapExit.raisedOrig
     | UowResult.dbErrRaised _ => WrapExit.raisedOrig
     | UowResult.otherRaised => WrapExit.raisedOrig, [])
  else
    match u with
    | UowResult.ok => (WrapExit.returned, [SessEvent.commitE, SessEvent.removeE])
    | UowResult.timeoutRaised m =>
      (WrapExit.databaseException m, [SessEvent.rollbackE, SessEvent.removeE])
    | UowResult.dbErrRaised m =>
      (WrapExit.databaseException m, [SessEvent.rollbackE, SessEvent.removeE])
    | UowResult.otherRaised => (WrapExit.raisedOrig, [SessEvent.rollbackE, SessEvent.removeE])

/-! ## evaluator.py: the per-batch processing loop of re_evaluator -/

/-- EvalOutcome is the behaviour of one call of the external evaluation
capability re_evaluate_did: normal return, DataIdentifierNotFound,
DatabaseException or sqlalchemy DatabaseError, or any other exception. -/
inductive EvalOutcome
  | success
  | notFound
  | dbError
  | unexpected
deriving DecidableEq

/-- ItemStep records which branch of the loop body handled one item that
passed the stop check, in fetch order. -/
inductive ItemStep
  | dupDelete
  | evalOk
  | evalNotFound
  | evalDbError
  | evalUnexpected
deriving DecidableEq

/-- BatchTag tells how the for loop over the fetched batch ended: list
exhausted, break on the stop flag, or an unexpected exception escaping the
loop. -/
inductive BatchTag
  | completed
  | stopped
  | aborted
deriving DecidableEq

/-- BatchRun is the trace of one pass over the fetched batch: the per-item
steps, the final done_dids dictionary and how the loop ended. -/
structure BatchRun where
  steps : List ItemStep
  done_dids : List (String × List String)
  tag : BatchTag
deriving DecidableEq

/-- lookupD models Python dictionary lookup on the association-list
representation of done_dids. -/
def lookupD (done : List (String × List String)) (k : String) : Option (List String) :=
  match done with
  | [] => none
  | (k2, v) :: rest => if k2 = k then some v else lookupD rest k

/-- setD models assigning done_dids[k] = v. -/
def setD (done : List (String × List String)) (k : String) (v : List String) :
    List (String × List String) :=
  match done with
  | [] => [(k, v)]
  | (k2, v2) :: rest => if k2 = k then (k, v) :: rest else (k2, v2) :: setD rest k v

/-- appendD models done_dids[k].append(a) (creating a singleton entry when
the key is absent; re_evaluator only appends to keys it just ensured are
present). -/
def appendD (done : List (String × List String)) (k : String) (a : String) :
    List (String × List String) :=
  match done with
  | [] => [(k, [a])]
  | (k2, v2) :: rest =>
    if k2 = k then (k2, v2 ++ [a]) :: rest else (k2, v2) :: appendD rest k a

/-- dupHit models the two-level duplicate test of re_evaluator: the key is
in done_dids and the action is in the list stored under it. -/
def dupHit (done : List (String × List String)) (k : String) (a : String) : Bool :=
  match lookupD done k with
  | some acts => decide (a ∈ acts)
  | none => false

/-- dupRecord models the two bookkeeping statements of the non-duplicate
path: done_dids[key] = [] when the key is absent (the else branch of the
membership test), followed by done_dids[key].append(action). -/
def dupRecord (done : List (String × List String)) (key act : String) :
    List (String × List String) :=
  appendD (if (lookupD done key).isSome then done else setD done key []) key act

/-- re_evaluator_batch is translated from the for loop of re_evaluator
(evaluator.py lines 76-96).  stop i is the value of graceful_stop.is_set()
at the check preceding the i-th item; outcome i is the behaviour of the
re_evaluate_did call for the i-th item.  For each item that passes the stop
check: the duplicate branch deletes without evaluating; otherwise the key is
initialised in done_dids if absent, the action appended, and the evaluation
invoked - success and DataIdentifierNotFound delete the row (flush=False),
DatabaseException/DatabaseError leaves it and continues, and any other
exception propagates out of the loop (tag aborted). -/
def re_evaluator_batch (stop : Nat → Bool) (outcome : Nat → EvalOutcome) :
    List UpdatedDID → Nat → List (String × List String) → BatchRun
  | [], _, done => ⟨[], done, BatchTag.completed⟩
  | d :: rest, i, done =>
    if stop i then ⟨[], done, BatchTag.stopped⟩
    else if dupHit done (didKey d) d.rule_evaluation_action then
      let r := re_evaluator_batch stop outcome rest (i + 1) done
      ⟨ItemStep.dupDelete :: r.steps, r.done_dids, r.tag⟩
    else
      let done1 := dupRecord done (didKey d) d.rule_evaluation_action
      match outcome i with
      | EvalOutcome.success =>
        let r := re_evaluator_batch stop outcome rest (i + 1) done1
        ⟨ItemStep.evalOk :: r.steps, r.done_dids, r.tag⟩
      | EvalOutcome.notFound =>
        let r := re_evaluator_batch stop outcome rest (i + 1) done1
        ⟨ItemStep.evalNotFound :: r.steps, r.done_dids, r.tag⟩
      | EvalOutcome.dbError =>
        let r := re_evaluator_batch stop outcome rest (i + 1) done1
        ⟨ItemStep.evalDbError :: r.steps, r.done_dids, r.tag⟩
      | EvalOutcome.unexpected =>
        ⟨[ItemStep.evalUnexpected], done1, BatchTag.aborted⟩

/-- stepEvaluated is true iff the recorded branch invoked re_evaluate_did. -/
def stepEvaluated : ItemStep → Bool
  | ItemStep.dupDelete => false
  | _ => true

/-- stepDeleted is true iff the recorded branch called did.delete. -/
def stepDeleted : ItemStep → Bool
  | ItemStep.dupDelete => true
  | ItemStep.evalOk => true
  | ItemStep.evalNotFound => true
  | _ => false

/-- stepOfOutcome maps the behaviour of re_evaluate_did to the branch the
loop body takes when the item is not an intra-batch duplicate. -/
def stepOfOutcome : EvalOutcome → ItemStep
  | EvalOutcome.success => ItemStep.evalOk
  | EvalOutcome.notFound => ItemStep.evalNotFound
  | EvalOutcome.dbError => ItemStep.evalDbError
  | EvalOutcome.unexpected => ItemStep.evalUnexpected

/-! ## evaluator.py: one iteration of the while loop of re_evaluator -/

/-- BodyEffects records the externally visible session effects of one
fetch/process/commit cycle: the item trace and whether session.flush,
session.commit and session.remove ran. -/
structure BodyEffects where
  steps : List ItemStep
  flushed : Bool
  committed : Bool
  removed : Bool
deriving DecidableEq

/-- re_evaluator_cycle is translated from the body of the try statement in
the while loop of re_evaluator (evaluator.py lines 49-100).  fetchRes is the
result of building and running the fetch query (an exception there skips
everything); an empty batch in a continuous run sleeps and still reaches the
flush/commit/remove epilogue; otherwise the batch is processed, and only
when no exception escaped the for loop do flush, commit and remove run.
commitFail injects a failure of the commit call itself (after a successful
flush).  The second component is the exception escaping the try body, if
any, which the enclosing except Exception clause will receive. -/
def re_evaluator_cycle (once : Bool) (fetchRes : Except SqlExc (List UpdatedDID))
    (stop : Nat → Bool) (outcome : Nat → EvalOutcome) (commitFail : Option SqlExc) :
    BodyEffects × Option SqlExc :=
  match fetchRes with
  | Except.error e => (⟨[], false, false, false⟩, some e)
  | Except.ok dids =>
    if dids.isEmpty && !once then
      match commitFail with
      | some e => (⟨[], true, false, false⟩, some e)
      | none => (⟨[], true, true, true⟩, none)
    else
      let r := re_evaluator_batch stop outcome dids 0 []
      match r.tag with
      | BatchTag.aborted =>
        (⟨r.steps, false, false, false⟩, some (SqlExc.otherError "unexpected"))
      | _ =>
        match commitFail with
        | some e => (⟨r.steps, true, false, false⟩, some e)
        | none => (⟨r.steps, true, true, true⟩, none)

/-- exceptExceptionCatches models the except Exception clause of
re_evaluator: every exception modelled here derives from Python Exception,
so the handler matches all of them. -/
def exceptExceptionCatches (_e : SqlExc) : Bool := true

/-- LoopStep is what the worker loop does after one cycle: run another
polling cycle, break out (once mode), or crash with an uncaught exception. -/
inductive LoopStep
  | proceed
  | halt
  | crash (e : SqlExc)
deriving DecidableEq

/-- re_evaluator_step composes one cycle with the except Exception handler
(which records a counter, zeroes the gauge and logs, none of which affect
control flow) and the trailing if once: break. -/
def re_evaluator_step (once : Bool) (fetchRes : Except SqlExc (List UpdatedDID))
    (stop : Nat → Bool) (outcome : Nat → EvalOutcome) (commitFail : Option SqlExc) : LoopStep :=
  match (re_evaluator_cycle once fetchRes stop outcome commitFail).2 with
  | some e =>
    if exceptExceptionCatches e then (if once then LoopStep.halt else LoopStep.proceed)
    else LoopStep.crash e
  | none => if once then LoopStep.halt else LoopStep.proceed

/-! ## evaluator.py: gauge initialisation in the run entry point -/

/-- xrangeN models Python xrange(a, b) for the nonnegative bounds produced
in run: the half-open interval of integers from a up to but excluding b. -/
def xrangeN (a b : Nat) : List Nat := List.range' a (b - a)

/-- run_init_gauges is translated from the first statement of run: the list
of worker numbers i for which record_gauge(..., 0) is called, i ranging over
xrange(process*threads_per_process, max(0, process*threads_per_process +
threads_per_process - 1)).  Python integer arithmetic only dips below zero
as process*threads_per_process + threads_per_process - 1 when both terms
are zero, where the max(0, _) clamp makes Nat subtraction agree. -/
def run_init_gauges (process threads_per_process : Nat) : List Nat :=
  xrangeN (process * threads_per_process)
    (max 0 (process * threads_per_process + threads_per_process - 1))

/-! ## Helper lemmas for the partition filter -/

theorem partitionFilter_oracle_eq (tw wn h : Nat) :
    partitionFilter "oracle" tw wn h = some (h % (tw + 1) == wn) := rfl

theorem partitionFilter_mysql_eq (tw wn h : Nat) :
    partitionFilter "mysql" tw wn h = some (h % tw == wn) := rfl

theorem partitionFilter_postgresql_eq (tw wn h : Nat) :
    partitionFilter "postgresql" tw wn h = some (h % tw == wn) := rfl

/-! ## Claim C1 -/

/-- C1: the claim states that on every supported backend (oracle, mysql,
postgresql) the partition predicate hashes name modulo total_workers + 1,
so that every worker number in [0, W] is selected by some key.  The code
satisfies this only on oracle: ORA_HASH(name, W) ranges over 0..W, but the
mysql and postgresql branches build mod(hash, W), whose residues range over
0..W-1, so the worker with worker_number = W = total_workers can never be
selected there.  With W = 1 (two workers), no name hash selects worker 1 on
mysql or postgresql, while on oracle a hash of 1 does. -/
theorem c1_mysql_modulus_starves_last_worker :
    (∀ h : Nat, partitionFilter "mysql" 1 1 h ≠ some true)
    ∧ (∀ h : Nat, partitionFilter "postgresql" 1 1 h ≠ some true)
    ∧ partitionFilter "oracle" 1 1 1 = some true := by
  refine ⟨?_, ?_, by rfl⟩ <;> intro h hh
  · rw [partitionFilter_mysql_eq] at hh
    simp [Nat.mod_one] at hh
  · rw [partitionFilter_postgresql_eq] at hh
    simp [Nat.mod_one] at hh

/-! ## Claim C2 -/

/-- connectFailTwice is the scenario of the claim: the wrapped connect
raises a recognized transient OperationalError on attempts 0 and 1 and
succeeds on attempt 2. -/
def connectFailTwice : Nat → Except SqlExc Nat := fun n =>
  if n < 2 then Except.error (SqlExc.operationalError "2003: Cannot connect to MySQL server")
  else Except.ok 7

/-- C2: the claim states that a transient connectivity error failing twice
and succeeding on the third attempt is retried and returns the successful
result with no error surfaced.  In the code the except DatabaseError clause
precedes the except OperationalError clause, and in sqlalchemy
OperationalError is a subclass of DatabaseError, so the wrapper raises
RucioException immediately on the first failure and the retry loop is
unreachable; the retry loop itself, had it been reached, would have
returned the successful result.  The third conjunct checks the error is indeed a
recognized disconnect signal, so the non-transient escape hatch is not what
fired. -/
theorem c2_retry_branch_unreachable :
    wrap_db_error connectFailTwice
      = WrapOutcome.rucioException "2003: Cannot connect to MySQL server"
    ∧ retry_loop connectFailTwice 1 10 = WrapOutcome.ok 7
    ∧ is_db_connection_error "2003: Cannot connect to MySQL server" = true := by
  refine ⟨rfl, rfl, by decide⟩

/-! ## Claim C9 -/

/-- C9: the claim states that run initialises the activity gauge to 0 for
every worker number in [process*tpp, process*tpp + tpp - 1].  The code
iterates xrange(process*tpp, max(0, process*tpp + tpp - 1)), whose upper
bound is exclusive, so the last worker of the process is always skipped:
with one thread per process nothing at all is initialised (expected [0]),
with process=0 and two threads only worker 0 is initialised (expected
[0, 1]), and with process=1 and three threads workers 3 and 4 but not 5
are initialised (expected [3, 4, 5]). -/
theorem c9_gauge_init_off_by_one :
    run_init_gauges 0 1 = [] ∧ run_init_gauges 0 2 = [0]
    ∧ run_init_gauges 1 3 = [3, 4] := by decide

/-! ## Claim C5 -/

/-- C5 counterexample: the claim states that every invocation of
read_session or transactional_session that acquires its own session
performs exactly one of commit or rollback on every exit path.  A
read_session invocation whose unit of work returns normally performs
neither: it only removes the session. -/
theorem c5_counterexample_read_ok_commits_nothing :
    ((read_session false UowResult.ok).2.count SessEvent.commitE = 0)
    ∧ ((read_session false UowResult.ok).2.count SessEvent.rollbackE = 0)
    ∧ ((read_session false UowResult.ok).1 = WrapExit.returned)
    ∧ SessEvent.removeE ∈ (read_session false UowResult.ok).2 := by decide

/-- C5 amended: for invocations acquiring their own session,
transactional_session performs exactly one of commit and rollback on every
exit path, while read_session never commits and rolls back exactly on the
raising exit paths (so at most one of the two); both always remove the
session afterwards. -/
theorem c5_amended_session_discipline (u : UowResult) :
    ((transactional_session false u).2.count SessEvent.commitE
      + (transactional_session false u).2.count SessEvent.rollbackE = 1)
    ∧ SessEvent.removeE ∈ (transactional_session false u).2
    ∧ ((read_session false u).2.count SessEvent.commitE = 0)
    ∧ ((read_session false u).2.count SessEvent.rollbackE
        = if u = UowResult.ok then 0 else 1)
    ∧ SessEvent.removeE ∈ (read_session false u).2 := by
  cases u with
  | ok => exact ⟨rfl, List.Mem.tail _ (List.Mem.head _), rfl, rfl, List.Mem.head _⟩
  | timeoutRaised m =>
    exact ⟨rfl, List.Mem.tail _ (List.Mem.head _), rfl, rfl, List.Mem.tail _ (List.Mem.head _)⟩
  | dbErrRaised m =>
    exact ⟨rfl, List.Mem.tail _ (List.Mem.head _), rfl, rfl, List.Mem.tail _ (List.Mem.head _)⟩
  | otherRaised =>
    exact ⟨rfl, List.Mem.tail _ (List.Mem.head _), rfl, rfl, List.Mem.tail _ (List.Mem.head _)⟩

/-! ## Claim C6 -/

/-- C6 counterexample: the claim states that a WorkItem visible to a worker
either satisfies the hash-partition predicate of the worker or total_workers is
0, on every database backend.  On a backend that is none of oracle, mysql
and postgresql (session.py explicitly supports sqlite), re_evaluator
attaches no filter even though total_workers > 0: with two workers on
sqlite, worker 1 sees a row whose hash residue selects no worker under any
of the three hash rules. -/
theorem c6_counterexample_sqlite_unfiltered :
    queryVisible "sqlite" 2 1 1 0 0 = true
    ∧ total_workers 2 1 ≠ 0
    ∧ partitionFilter "sqlite" 1 1 0 = none
    ∧ partitionFilter "oracle" 1 1 0 ≠ some true
    ∧ partitionFilter "mysql" 1 1 0 ≠ some true
    ∧ partitionFilter "postgresql" 1 1 0 ≠ some true := by decide

/-- C6 amended: every WorkItem visible to the query of a worker satisfies the
partition filter of the dialect, or total_workers = 0 (no filter applied), or
the dialect is none of oracle, mysql, postgresql (in which case the code
also applies no filter and the full queue is visible). -/
theorem c6_amended_visibility (dialect : String) (tp tpp p t h : Nat)
    (hvis : queryVisible dialect tp tpp p t h = true) :
    partitionFilter dialect (total_workers tp tpp) (worker_number p tpp t) h = some true
    ∨ total_workers tp tpp = 0
    ∨ (dialect ≠ "oracle" ∧ dialect ≠ "mysql" ∧ dialect ≠ "postgresql") := by
  by_cases h0 : 0 < total_workers tp tpp
  · unfold queryVisible at hvis
    rw [if_pos h0] at hvis
    by_cases ho : dialect = "oracle"
    · subst ho
      rw [partitionFilter_oracle_eq] at hvis ⊢
      exact Or.inl (by simpa using hvis)
    by_cases hm : dialect = "mysql"
    · subst hm
      rw [partitionFilter_mysql_eq] at hvis ⊢
      exact Or.inl (by simpa using hvis)
    by_cases hp : dialect = "postgresql"
    · subst hp
      rw [partitionFilter_postgresql_eq] at hvis ⊢
      exact Or.inl (by simpa using hvis)
    · exact Or.inr (Or.inr ⟨ho, hm, hp⟩)
  · exact Or.inr (Or.inl (by omega))

/-- C6 witness: the amended statement applied to a concrete oracle
deployment with two workers, worker 0 and a hash of 4. -/
theorem c6_amended_visibility_witness :
    queryVisible "oracle" 2 1 0 0 4 = true
    ∧ (partitionFilter "oracle" (total_workers 2 1) (worker_number 0 1 0) 4 = some true
        ∨ total_workers 2 1 = 0
        ∨ ("oracle" ≠ "oracle" ∧ "oracle" ≠ "mysql" ∧ "oracle" ≠ "postgresql")) :=
  ⟨by decide, c6_amended_visibility "oracle" 2 1 0 0 4 (by decide)⟩

/-! ## Claim C8 -/

/-- C8: every exception escaping the fetch/process/commit body is caught by
the except Exception clause at the batch boundary inside the while loop
(every exception modelled derives from Exception), so the worker loop never
crashes, and a continuous (non-once) run always proceeds to the next
polling cycle. -/
theorem c8_no_uncaught_escape (once : Bool) (fetchRes : Except SqlExc (List UpdatedDID))
    (stop : Nat → Bool) (outcome : Nat → EvalOutcome) (commitFail : Option SqlExc) :
    (∀ e, re_evaluator_step once fetchRes stop outcome commitFail ≠ LoopStep.crash e)
    ∧ re_evaluator_step once fetchRes stop outcome commitFail
        = (if once then LoopStep.halt else LoopStep.proceed) := by
  unfold re_evaluator_step
  cases hx : (re_evaluator_cycle once fetchRes stop outcome commitFail).2 <;>
    simp [exceptExceptionCatches] <;> cases once <;> simp

/-! ## Dictionary lemmas for done_dids -/

theorem lookupD_appendD (done : List (String × List String)) (k a k2 : String) :
    lookupD (appendD done k a) k2
      = if k2 = k then some ((lookupD done k).getD [] ++ [a]) else lookupD done k2 := by
  induction done with
  | nil =>
    by_cases h : k2 = k
    · subst h; simp [appendD, lookupD]
    · have h' : ¬k = k2 := fun hh => h hh.symm
      simp [appendD, lookupD, h, h']
  | cons p rest ih =>
    obtain ⟨k3, v3⟩ := p
    by_cases h3 : k3 = k
    · subst h3
      by_cases h2 : k2 = k3
      · subst h2; simp [appendD, lookupD]
      · have h2' : ¬k3 = k2 := fun hh => h2 hh.symm
        simp [appendD, lookupD, h2, h2']
    · by_cases h2 : k3 = k2
      · subst h2
        have h3' : ¬k = k3 := fun hh => h3 hh.symm
        simp [appendD, lookupD, h3, h3', ih]
      · simp [appendD, lookupD, h3, h2, ih]

theorem lookupD_setD (done : List (String × List String)) (k : String) (v : List String)
    (k2 : String) :
    lookupD (setD done k v) k2 = if k2 = k then some v else lookupD done k2 := by
  induction done with
  | nil =>
    by_cases h : k2 = k
    · subst h; simp [setD, lookupD]
    · have h' : ¬k = k2 := fun hh => h hh.symm
      simp [setD, lookupD, h, h']
  | cons p rest ih =>
    obtain ⟨k3, v3⟩ := p
    by_cases h3 : k3 = k
    · subst h3
      by_cases h2 : k2 = k3
      · subst h2; simp [setD, lookupD]
      · have h2' : ¬k3 = k2 := fun hh => h2 hh.symm
        simp [setD, lookupD, h2, h2']
    · by_cases h2 : k3 = k2
      · subst h2
        have h3' : ¬k = k3 := fun hh => h3 hh.symm
        simp [setD, lookupD, h3, h3', ih]
      · simp [setD, lookupD, h3, h2, ih]

theorem dupHit_eq_mem (done : List (String × List String)) (k a : String) :
    dupHit done k a = true ↔ a ∈ (lookupD done k).getD [] := by
  cases h : lookupD done k <;> simp [dupHit, h]

/-- DoneAbs relates the dictionary representation of done_dids to the flat
list of (key, action) pairs it records. -/
def DoneAbs (done : List (String × List String)) (H : List (String × String)) : Prop :=
  ∀ k a, dupHit done k a = true ↔ (k, a) ∈ H

theorem doneAbs_nil : DoneAbs [] [] := by
  intro k a
  simp [dupHit, lookupD]

theorem lookupD_dupRecord (done : List (String × List String)) (key act k : String) :
    lookupD (dupRecord done key act) k
      = if k = key then some ((lookupD done key).getD [] ++ [act]) else lookupD done k := by
  unfold dupRecord
  by_cases hp : (lookupD done key).isSome
  · rw [if_pos hp, lookupD_appendD]
  · rw [if_neg hp, lookupD_appendD]
    by_cases hk : k = key
    · subst hk
      rw [if_pos rfl, if_pos rfl, lookupD_setD, if_pos rfl]
      cases h : lookupD done k
      · simp
      · rw [h] at hp; simp at hp
    · rw [if_neg hk, if_neg hk, lookupD_setD, if_neg hk]

theorem doneAbs_step (done : List (String × List String)) (H : List (String × String))
    (habs : DoneAbs done H) (key act : String) :
    DoneAbs (dupRecord done key act) (H ++ [(key, act)]) := by
  intro k a
  rw [dupHit_eq_mem, lookupD_dupRecord]
  constructor
  · intro hmem
    by_cases hk : k = key
    · subst hk
      rw [if_pos rfl, Option.getD_some, List.mem_append, List.mem_singleton] at hmem
      cases hmem with
      | inl h =>
        exact List.mem_append.mpr
          (Or.inl ((habs k a).mp ((dupHit_eq_mem done k a).mpr h)))
      | inr h =>
        subst h
        exact List.mem_append.mpr (Or.inr (List.mem_singleton.mpr rfl))
    · rw [if_neg hk] at hmem
      exact List.mem_append.mpr (Or.inl ((habs k a).mp ((dupHit_eq_mem done k a).mpr hmem)))
  · intro hmem
    rcases List.mem_append.mp hmem with h | h
    · have h2 := (dupHit_eq_mem done k a).mp ((habs k a).mpr h)
      by_cases hk : k = key
      · subst hk
        rw [if_pos rfl, Option.getD_some, List.mem_append]
        exact Or.inl h2
      · rw [if_neg hk]
        exact h2
    · rw [List.mem_singleton] at h
      have hk : k = key := congrArg Prod.fst h
      have ha : a = act := congrArg Prod.snd h
      subst hk
      subst ha
      rw [if_pos rfl, Option.getD_some, List.mem_append, List.mem_singleton]
      exact Or.inr rfl

/-! ## Claim C10 -/

/-- C10: when an unexpected exception escapes the for loop over the batch
(tag aborted), the session epilogue of the try body is skipped entirely:
flush, commit and remove do not run for that cycle, the deletions queued
with flush=False are not committed, and the escaping exception is what the
outer handler receives. -/
theorem c10_abort_skips_epilogue (once : Bool) (stop : Nat → Bool) (outcome : Nat → EvalOutcome)
    (commitFail : Option SqlExc) (batch : List UpdatedDID)
    (habort : (re_evaluator_batch stop outcome batch 0 []).tag = BatchTag.aborted) :
    ((re_evaluator_cycle once (Except.ok batch) stop outcome commitFail).1.flushed = false)
    ∧ ((re_evaluator_cycle once (Except.ok batch) stop outcome commitFail).1.committed = false)
    ∧ ((re_evaluator_cycle once (Except.ok batch) stop outcome commitFail).1.removed = false)
    ∧ ((re_evaluator_cycle once (Except.ok batch) stop outcome commitFail).2
        = some (SqlExc.otherError "unexpected")) := by
  cases batch with
  | nil => simp [re_evaluator_batch] at habort
  | cons d rest =>
    simp [re_evaluator_cycle, habort]

/-- c10batch is a one-item batch whose evaluation raises an unexpected
exception. -/
def c10batch : List UpdatedDID := [⟨"scope1", "name1", "attach", 0⟩]

/-- C10 witness: the theorem applied to the concrete aborting batch. -/
theorem c10_abort_skips_epilogue_witness :
    (re_evaluator_batch (fun _ => false) (fun _ => EvalOutcome.unexpected) c10batch 0 []).tag
      = BatchTag.aborted
    ∧ ((re_evaluator_cycle false (Except.ok c10batch) (fun _ => false)
        (fun _ => EvalOutcome.unexpected) none).1.flushed = false)
    ∧ ((re_evaluator_cycle false (Except.ok c10batch) (fun _ => false)
        (fun _ => EvalOutcome.unexpected) none).1.committed = false)
    ∧ ((re_evaluator_cycle false (Except.ok c10batch) (fun _ => false)
        (fun _ => EvalOutcome.unexpected) none).1.removed = false)
    ∧ ((re_evaluator_cycle false (Except.ok c10batch) (fun _ => false)
        (fun _ => EvalOutcome.unexpected) none).2 = some (SqlExc.otherError "unexpected")) :=
  ⟨by decide, c10_abort_skips_epilogue false (fun _ => false) (fun _ => EvalOutcome.unexpected)
    none c10batch (by decide)⟩

/-! ## Reaching lemma for the stop check -/

/-- reach_stop: if the stop flag reads false at the first m item checks, the
first m items evaluate without an unexpected exception, and the flag reads
true at check m (which exists because the batch is longer), then the for
loop breaks at that check, having entered exactly the first m items. -/
theorem reach_stop (stop : Nat → Bool) (outcome : Nat → EvalOutcome) :
    ∀ (m : Nat) (batch : List UpdatedDID) (i0 : Nat) (done : List (String × List String)),
      m < batch.length →
      (∀ j, j < m → stop (i0 + j) = false) →
      stop (i0 + m) = true →
      (∀ j, j < m → outcome (i0 + j) ≠ EvalOutcome.unexpected) →
      (re_evaluator_batch stop outcome batch i0 done).tag = BatchTag.stopped
      ∧ (re_evaluator_batch stop outcome batch i0 done).steps.length = m := by
  intro m
  induction m with
  | zero =>
    intro batch i0 done hlen hbefore hstop hout
    cases batch with
    | nil => simp at hlen
    | cons d rest =>
      have h0 : stop i0 = true := by simpa using hstop
      simp [re_evaluator_batch, h0]
  | succ m ih =>
    intro batch i0 done hlen hbefore hstop hout
    cases batch with
    | nil => simp at hlen
    | cons d rest =>
      have h0 : stop i0 = false := by
        have := hbefore 0 (Nat.succ_pos m)
        simpa using this
      have hlen2 : m < rest.length := by simpa using hlen
      have hbefore2 : ∀ j, j < m → stop (i0 + 1 + j) = false := by
        intro j hj
        have h := hbefore (j + 1) (by omega)
        rw [show i0 + 1 + j = i0 + (j + 1) from by omega]
        exact h
      have hstop2 : stop (i0 + 1 + m) = true := by
        rw [show i0 + 1 + m = i0 + (m + 1) from by omega]
        exact hstop
      have hout2 : ∀ j, j < m → outcome (i0 + 1 + j) ≠ EvalOutcome.unexpected := by
        intro j hj
        have h := hout (j + 1) (by omega)
        rw [show i0 + 1 + j = i0 + (j + 1) from by omega]
        exact h
      cases hdup : dupHit done (didKey d) d.rule_evaluation_action with
      | true =>
        have hr := ih rest (i0 + 1) done hlen2 hbefore2 hstop2 hout2
        simp [re_evaluator_batch, h0, hdup, hr.1, hr.2]
      | false =>
        cases houtc : outcome i0 with
        | success =>
          have hr := ih rest (i0 + 1) (dupRecord done (didKey d) d.rule_evaluation_action)
            hlen2 hbefore2 hstop2 hout2
          simp [re_evaluator_batch, h0, hdup, houtc, hr.1, hr.2]
        | notFound =>
          have hr := ih rest (i0 + 1) (dupRecord done (didKey d) d.rule_evaluation_action)
            hlen2 hbefore2 hstop2 hout2
          simp [re_evaluator_batch, h0, hdup, houtc, hr.1, hr.2]
        | dbError =>
          have hr := ih rest (i0 + 1) (dupRecord done (didKey d) d.rule_evaluation_action)
            hlen2 hbefore2 hstop2 hout2
          simp [re_evaluator_batch, h0, hdup, houtc, hr.1, hr.2]
        | unexpected =>
          have := hout 0 (Nat.succ_pos m)
          rw [Nat.add_zero] at this
          exact absurd houtc this

/-! ## Claim C7 -/

/-- C7: when the stop request is observed at the check preceding item k+1
(the flag read false before items 0..k, which evaluated without unexpected
errors, and reads true at check k+1), the loop breaks there: exactly the
first k+1 items were entered, none after position k is evaluated, and the
cycle still runs the epilogue, flushing and committing the deletions of
items 0..k and removing the session. -/
theorem c7_stop_mid_batch (stop : Nat → Bool) (outcome : Nat → EvalOutcome)
    (batch : List UpdatedDID) (k : Nat)
    (hlen : k + 1 < batch.length)
    (hbefore : ∀ i, i ≤ k → stop i = false)
    (hstop : stop (k + 1) = true)
    (hout : ∀ i, i ≤ k → outcome i ≠ EvalOutcome.unexpected) :
    (re_evaluator_batch stop outcome batch 0 []).tag = BatchTag.stopped
    ∧ (re_evaluator_batch stop outcome batch 0 []).steps.length = k + 1
    ∧ (∀ i st, (re_evaluator_batch stop outcome batch 0 []).steps.get? i = some st → i ≤ k)
    ∧ ((re_evaluator_cycle false (Except.ok batch) stop outcome none).1.flushed = true)
    ∧ ((re_evaluator_cycle false (Except.ok batch) stop outcome none).1.committed = true)
    ∧ ((re_evaluator_cycle false (Except.ok batch) stop outcome none).1.removed = true) := by
  have h := reach_stop stop outcome (k + 1) batch 0 []
    hlen
    (fun j hj => by rw [Nat.zero_add]; exact hbefore j (by omega))
    (by rw [Nat.zero_add]; exact hstop)
    (fun j hj => by rw [Nat.zero_add]; exact hout j (by omega))
  refine ⟨h.1, h.2, ?_, ?_⟩
  · intro i st hst
    by_contra hi
    have hge : (re_evaluator_batch stop outcome batch 0 []).steps.length ≤ i := by
      rw [h.2]; omega
    rw [List.get?_eq_none.mpr hge] at hst
    exact Option.noConfusion hst
  · cases batch with
    | nil => simp at hlen
    | cons d rest =>
      have htag := h.1
      simp [re_evaluator_cycle, htag]

/-! ## Main characterisation of the per-item steps -/

/-- steps_spec: for a run of the batch loop from a done_dids dictionary
abstracted by the pair list H, the i-th recorded step is the duplicate
branch exactly when the (scope:name key, action) pair of the item is in H or
matches an earlier item of the batch whose step invoked the evaluation;
any other step is fully determined by the outcome of the evaluation of
that item. -/
theorem steps_spec (stop : Nat → Bool) (outcome : Nat → EvalOutcome) :
    ∀ (batch : List UpdatedDID) (i0 : Nat) (done : List (String × List String))
      (H : List (String × String)), DoneAbs done H →
      ∀ i st, (re_evaluator_batch stop outcome batch i0 done).steps.get? i = some st →
        ∃ d, batch.get? i = some d
          ∧ (st = ItemStep.dupDelete ↔
              (keyAct d ∈ H ∨ ∃ j dj stj, j < i ∧ batch.get? j = some dj
                ∧ (re_evaluator_batch stop outcome batch i0 done).steps.get? j = some stj
                ∧ stepEvaluated stj = true ∧ keyAct dj = keyAct d))
          ∧ (st ≠ ItemStep.dupDelete → st = stepOfOutcome (outcome (i0 + i))) := by
  intro batch
  induction batch with
  | nil =>
    intro i0 done H habs i st hst
    simp [re_evaluator_batch] at hst
  | cons d0 rest ih =>
    intro i0 done H habs i st hst
    cases hstop : stop i0 with
    | true =>
      rw [show re_evaluator_batch stop outcome (d0 :: rest) i0 done
          = ⟨[], done, BatchTag.stopped⟩ from by simp [re_evaluator_batch, hstop]] at hst
      simp at hst
    | false =>
      cases hdup : dupHit done (didKey d0) d0.rule_evaluation_action with
      | true =>
        have hrun : re_evaluator_batch stop outcome (d0 :: rest) i0 done
            = ⟨ItemStep.dupDelete :: (re_evaluator_batch stop outcome rest (i0 + 1) done).steps,
               (re_evaluator_batch stop outcome rest (i0 + 1) done).done_dids,
               (re_evaluator_batch stop outcome rest (i0 + 1) done).tag⟩ := by
          simp [re_evaluator_batch, hstop, hdup]
        rw [hrun] at hst ⊢
        cases i with
        | zero =>
          simp only [List.get?_cons_zero, Option.some.injEq] at hst
          subst hst
          refine ⟨d0, rfl, ?_, fun hne => absurd rfl hne⟩
          constructor
          · intro _
            exact Or.inl ((habs (didKey d0) d0.rule_evaluation_action).mp hdup)
          · intro _
            rfl
        | succ n =>
          simp only [List.get?_cons_succ] at hst
          obtain ⟨d, hd, hiff, himpl⟩ := ih (i0 + 1) done H habs n st hst
          refine ⟨d, by simpa using hd, ?_, ?_⟩
          · rw [hiff]
            constructor
            · rintro (h | ⟨j, dj, stj, hj, hdj, hstj, hev, hkey⟩)
              · exact Or.inl h
              · exact Or.inr ⟨j + 1, dj, stj, by omega, by simpa using hdj,
                  by simpa using hstj, hev, hkey⟩
            · rintro (h | ⟨j, dj, stj, hj, hdj, hstj, hev, hkey⟩)
              · exact Or.inl h
              · cases j with
                | zero =>
                  simp only [List.get?_cons_zero, Option.some.injEq] at hstj
                  rw [← hstj] at hev
                  simp [stepEvaluated] at hev
                | succ j2 =>
                  simp only [List.get?_cons_succ] at hdj hstj
                  exact Or.inr ⟨j2, dj, stj, by omega, hdj, hstj, hev, hkey⟩
          · intro hne
            rw [himpl hne, show i0 + 1 + n = i0 + (n + 1) from by omega]
      | false =>
        have habs2 : DoneAbs (dupRecord done (didKey d0) d0.rule_evaluation_action)
            (H ++ [(didKey d0, d0.rule_evaluation_action)]) :=
          doneAbs_step done H habs (didKey d0) d0.rule_evaluation_action
        have hnotinH : keyAct d0 ∉ H := by
          intro hmem
          have h := (habs (didKey d0) d0.rule_evaluation_action).mpr hmem
          rw [h] at hdup
          exact Bool.noConfusion hdup
        have key_step : ∀ st0 : ItemStep, stepEvaluated st0 = true →
            st0 = stepOfOutcome (outcome i0) →
            ∀ i st,
              (st0 :: (re_evaluator_batch stop outcome rest (i0 + 1)
                (dupRecord done (didKey d0) d0.rule_evaluation_action)).steps).get? i
                = some st →
              ∃ d, (d0 :: rest).get? i = some d
                ∧ (st = ItemStep.dupDelete ↔
                    (keyAct d ∈ H ∨ ∃ j dj stj, j < i ∧ (d0 :: rest).get? j = some dj
                      ∧ (st0 :: (re_evaluator_batch stop outcome rest (i0 + 1)
                          (dupRecord done (didKey d0) d0.rule_evaluation_action)).steps).get? j
                          = some stj
                      ∧ stepEvaluated stj = true ∧ keyAct dj = keyAct d))
                ∧ (st ≠ ItemStep.dupDelete → st = stepOfOutcome (outcome (i0 + i))) := by
          intro st0 hev0 hout0 i st hst2
          cases i with
          | zero =>
            simp only [List.get?_cons_zero, Option.some.injEq] at hst2
            subst hst2
            refine ⟨d0, rfl, ?_, ?_⟩
            · constructor
              · intro h
                rw [h] at hev0
                simp [stepEvaluated] at hev0
              · rintro (h | ⟨j, dj, stj, hj, hdj, hstj, hev, hkey⟩)
                · exact absurd h hnotinH
                · exact absurd hj (Nat.not_lt_zero j)
            · intro _
              rw [Nat.add_zero]
              exact hout0
          | succ n =>
            simp only [List.get?_cons_succ] at hst2
            obtain ⟨d, hd, hiff, himpl⟩ :=
              ih (i0 + 1) (dupRecord done (didKey d0) d0.rule_evaluation_action)
                (H ++ [(didKey d0, d0.rule_evaluation_action)]) habs2 n st hst2
            refine ⟨d, by simpa using hd, ?_, ?_⟩
            · rw [hiff]
              constructor
              · rintro (h | ⟨j, dj, stj, hj, hdj, hstj, hev, hkey⟩)
                · rcases List.mem_append.mp h with h2 | h2
                  · exact Or.inl h2
                  · rw [List.mem_singleton] at h2
                    refine Or.inr ⟨0, d0, st0, Nat.succ_pos n, rfl, rfl, hev0, ?_⟩
                    exact h2.symm
                · exact Or.inr ⟨j + 1, dj, stj, by omega, by simpa using hdj,
                    by simpa using hstj, hev, hkey⟩
              · rintro (h | ⟨j, dj, stj, hj, hdj, hstj, hev, hkey⟩)
                · exact Or.inl (List.mem_append.mpr (Or.inl h))
                · cases j with
                  | zero =>
                    simp only [List.get?_cons_zero, Option.some.injEq] at hdj hstj
                    refine Or.inl (List.mem_append.mpr (Or.inr ?_))
                    rw [List.mem_singleton, ← hkey, hdj]
                    exact rfl
                  | succ j2 =>
                    simp only [List.get?_cons_succ] at hdj hstj
                    exact Or.inr ⟨j2, dj, stj, by omega, hdj, hstj, hev, hkey⟩
            · intro hne
              rw [himpl hne, show i0 + 1 + n = i0 + (n + 1) from by omega]
        cases houtc : outcome i0 with
        | success =>
          have hrun : re_evaluator_batch stop outcome (d0 :: rest) i0 done
              = ⟨ItemStep.evalOk :: (re_evaluator_batch stop outcome rest (i0 + 1)
                  (dupRecord done (didKey d0) d0.rule_evaluation_action)).steps,
                 (re_evaluator_batch stop outcome rest (i0 + 1)
                  (dupRecord done (didKey d0) d0.rule_evaluation_action)).done_dids,
                 (re_evaluator_batch stop outcome rest (i0 + 1)
                  (dupRecord done (didKey d0) d0.rule_evaluation_action)).tag⟩ := by
            simp [re_evaluator_batch, hstop, hdup, houtc]
          rw [hrun] at hst ⊢
          exact key_step ItemStep.evalOk rfl (by simp [houtc, stepOfOutcome]) i st hst
        | notFound =>
          have hrun : re_evaluator_batch stop outcome (d0 :: rest) i0 done
              = ⟨ItemStep.evalNotFound :: (re_evaluator_batch stop outcome rest (i0 + 1)
                  (dupRecord done (didKey d0) d0.rule_evaluation_action)).steps,
                 (re_evaluator_batch stop outcome rest (i0 + 1)
                  (dupRecord done (didKey d0) d0.rule_evaluation_action)).done_dids,
                 (re_evaluator_batch stop outcome rest (i0 + 1)
                  (dupRecord done (didKey d0) d0.rule_evaluation_action)).tag⟩ := by
            simp [re_evaluator_batch, hstop, hdup, houtc]
          rw [hrun] at hst ⊢
          exact key_step ItemStep.evalNotFound rfl (by simp [houtc, stepOfOutcome]) i st hst
        | dbError =>
          have hrun : re_evaluator_batch stop outcome (d0 :: rest) i0 done
              = ⟨ItemStep.evalDbError :: (re_evaluator_batch stop outcome rest (i0 + 1)
                  (dupRecord done (didKey d0) d0.rule_evaluation_action)).steps,
                 (re_evaluator_batch stop outcome rest (i0 + 1)
                  (dupRecord done (didKey d0) d0.rule_evaluation_action)).done_dids,
                 (re_evaluator_batch stop outcome rest (i0 + 1)
                  (dupRecord done (didKey d0) d0.rule_evaluation_action)).tag⟩ := by
            simp [re_evaluator_batch, hstop, hdup, houtc]
          rw [hrun] at hst ⊢
          exact key_step ItemStep.evalDbError rfl (by simp [houtc, stepOfOutcome]) i st hst
        | unexpected =>
          have hrun : re_evaluator_batch stop outcome (d0 :: rest) i0 done
              = ⟨[ItemStep.evalUnexpected],
                 dupRecord done (didKey d0) d0.rule_evaluation_action, BatchTag.aborted⟩ := by
            simp [re_evaluator_batch, hstop, hdup, houtc]
          rw [hrun] at hst ⊢
          cases i with
          | zero =>
            simp only [List.get?_cons_zero, Option.some.injEq] at hst
            subst hst
            refine ⟨d0, rfl, ?_, ?_⟩
            · constructor
              · intro h
                exact ItemStep.noConfusion h
              · rintro (h | ⟨j, dj, stj, hj, hdj, hstj, hev, hkey⟩)
                · exact absurd h hnotinH
                · exact absurd hj (Nat.not_lt_zero j)
            · intro _
              rw [Nat.add_zero, houtc]
              rfl
          | succ n =>
            simp at hst

/-! ## Claim C3 -/

/-- c3batch exhibits two items with distinct (scope, name, action) triples
whose scope:name key strings collide ("a" with "b:c" and "a:b" with "c"). -/
def c3batch : List UpdatedDID :=
  [⟨"a", "b:c", "attach", 0⟩, ⟨"a:b", "c", "attach", 1⟩]

/-- C3 counterexample: the claim states an item is deleted only if it was
evaluated successfully, raised subject-not-found, or duplicates the
(scope, name, action) triple of an already-handled item.  Here item 1 is
deleted by the duplicate branch without ever being evaluated, although its
triple differs from that of item 0: the dictionary key is the string scope:name,
and the keys collide because the scope of item 1 contains a colon. -/
theorem c3_counterexample_key_collision :
    (re_evaluator_batch (fun _ => false) (fun _ => EvalOutcome.success) c3batch 0 []).steps
      = [ItemStep.evalOk, ItemStep.dupDelete]
    ∧ stepDeleted ItemStep.dupDelete = true
    ∧ stepEvaluated ItemStep.dupDelete = false
    ∧ c3batch.get? 0 ≠ c3batch.get? 1
    ∧ didKey ⟨"a", "b:c", "attach", 0⟩ = didKey ⟨"a:b", "c", "attach", 1⟩ := by decide

/-- C3 amended: within one pass over a fetched batch, an entered item is
deleted iff its evaluation succeeded or raised subject-not-found, or its
scope:name key string and action match those of an earlier item of the
batch that was evaluated (this coincides with triple equality whenever
scopes contain no colon); an item whose evaluation raises a database-layer
error is not deleted, and when no unexpected error aborts the batch the
cycle still flushes and commits, so that item remains in the queue. -/
theorem c3_amended_deletion_iff (stop : Nat → Bool) (outcome : Nat → EvalOutcome)
    (batch : List UpdatedDID) (i : Nat) (st : ItemStep) (d : UpdatedDID)
    (hst : (re_evaluator_batch stop outcome batch 0 []).steps.get? i = some st)
    (hd : batch.get? i = some d) :
    (stepDeleted st = true ↔
      ((outcome i = EvalOutcome.success ∨ outcome i = EvalOutcome.notFound)
        ∧ stepEvaluated st = true)
      ∨ (∃ j dj stj, j < i ∧ batch.get? j = some dj
          ∧ (re_evaluator_batch stop outcome batch 0 []).steps.get? j = some stj
          ∧ stepEvaluated stj = true ∧ didKey dj = didKey d
          ∧ dj.rule_evaluation_action = d.rule_evaluation_action))
    ∧ (stepEvaluated st = true → outcome i = EvalOutcome.dbError → stepDeleted st = false)
    ∧ ((re_evaluator_batch stop outcome batch 0 []).tag ≠ BatchTag.aborted →
        ((re_evaluator_cycle false (Except.ok batch) stop outcome none).1.flushed = true
          ∧ (re_evaluator_cycle false (Except.ok batch) stop outcome none).1.committed = true)) := by
  obtain ⟨d2, hd2, hiff, himpl⟩ := steps_spec stop outcome batch 0 [] [] doneAbs_nil i st hst
  rw [hd] at hd2
  injection hd2 with hd2
  subst hd2
  simp only [Nat.zero_add] at himpl
  have hconv : ∀ dj : UpdatedDID, keyAct dj = keyAct d ↔
      (didKey dj = didKey d ∧ dj.rule_evaluation_action = d.rule_evaluation_action) := by
    intro dj
    simp [keyAct, Prod.ext_iff]
  refine ⟨?_, ?_, ?_⟩
  · by_cases hq : st = ItemStep.dupDelete
    · subst hq
      have hr := hiff.mp rfl
      rcases hr with h | ⟨j, dj, stj, hj, hdj, hstj, hev, hkey⟩
      · exact absurd h (List.not_mem_nil _)
      · constructor
        · intro _
          exact Or.inr ⟨j, dj, stj, hj, hdj, hstj, hev, ((hconv dj).mp hkey).1,
            ((hconv dj).mp hkey).2⟩
        · intro _
          rfl
    · have hso := himpl hq
      have hnodup : ¬(∃ j dj stj, j < i ∧ batch.get? j = some dj
          ∧ (re_evaluator_batch stop outcome batch 0 []).steps.get? j = some stj
          ∧ stepEvaluated stj = true ∧ didKey dj = didKey d
          ∧ dj.rule_evaluation_action = d.rule_evaluation_action) := by
        rintro ⟨j, dj, stj, hj, hdj, hstj, hev, hk1, hk2⟩
        apply hq
        exact hiff.mpr (Or.inr ⟨j, dj, stj, hj, hdj, hstj, hev, (hconv dj).mpr ⟨hk1, hk2⟩⟩)
      constructor
      · intro hdel
        refine Or.inl ⟨?_, ?_⟩
        · cases ho : outcome i with
          | success => exact Or.inl rfl
          | notFound => exact Or.inr rfl
          | dbError =>
            rw [hso, ho] at hdel
            simp [stepOfOutcome, stepDeleted] at hdel
          | unexpected =>
            rw [hso, ho] at hdel
            simp [stepOfOutcome, stepDeleted] at hdel
        · rw [hso]
          cases ho : outcome i <;> rfl
      · rintro (⟨ho, _⟩ | hx)
        · rcases ho with ho | ho <;> rw [hso, ho] <;> rfl
        · exact absurd hx hnodup
  · intro hev hdb
    have hne : st ≠ ItemStep.dupDelete := by
      intro h
      rw [h] at hev
      simp [stepEvaluated] at hev
    rw [himpl hne, hdb]
    rfl
  · intro htag
    cases batch with
    | nil => simp [re_evaluator_batch] at hst
    | cons d0 rest =>
      cases hb : (re_evaluator_batch stop outcome (d0 :: rest) 0 []).tag with
      | aborted => exact absurd hb htag
      | completed => simp [re_evaluator_cycle, hb]
      | stopped => simp [re_evaluator_cycle, hb]

/-- c3wbatch is a single successfully evaluated item. -/
def c3wbatch : List UpdatedDID := [⟨"s", "n", "attach", 0⟩]

/-- C3 witness: the amended statement applied to the one-item batch whose
evaluation succeeds. -/
theorem c3_amended_deletion_iff_witness :
    ((re_evaluator_batch (fun _ => false) (fun _ => EvalOutcome.success) c3wbatch 0
        []).steps.get? 0 = some ItemStep.evalOk)
    ∧ (c3wbatch.get? 0 = some (⟨"s", "n", "attach", 0⟩ : UpdatedDID))
    ∧ ((stepDeleted ItemStep.evalOk = true ↔
        ((EvalOutcome.success = EvalOutcome.success ∨ EvalOutcome.success = EvalOutcome.notFound)
          ∧ stepEvaluated ItemStep.evalOk = true)
        ∨ (∃ j dj stj, j < 0 ∧ c3wbatch.get? j = some dj
            ∧ (re_evaluator_batch (fun _ => false) (fun _ => EvalOutcome.success) c3wbatch 0
                []).steps.get? j = some stj
            ∧ stepEvaluated stj = true
            ∧ didKey dj = didKey (⟨"s", "n", "attach", 0⟩ : UpdatedDID)
            ∧ dj.rule_evaluation_action
              = (⟨"s", "n", "attach", 0⟩ : UpdatedDID).rule_evaluation_action))
      ∧ (stepEvaluated ItemStep.evalOk = true → EvalOutcome.success = EvalOutcome.dbError →
          stepDeleted ItemStep.evalOk = false)
      ∧ ((re_evaluator_batch (fun _ => false) (fun _ => EvalOutcome.success) c3wbatch 0
            []).tag ≠ BatchTag.aborted →
          ((re_evaluator_cycle false (Except.ok c3wbatch) (fun _ => false)
              (fun _ => EvalOutcome.success) none).1.flushed = true
            ∧ (re_evaluator_cycle false (Except.ok c3wbatch) (fun _ => false)
                (fun _ => EvalOutcome.success) none).1.committed = true))) :=
  ⟨by decide, by decide,
    c3_amended_deletion_iff (fun _ => false) (fun _ => EvalOutcome.success) c3wbatch 0
      ItemStep.evalOk ⟨"s", "n", "attach", 0⟩ (by decide) (by decide)⟩

/-! ## Claim C4 -/

/-- C4: within one fetched batch the evaluation capability runs at most
once per distinct (scope, name, action) triple: if a later item j repeats
the triple of an earlier item i that was also entered, item j takes the
duplicate branch - it is deleted without invoking the evaluation.  This
holds whether item i itself was evaluated or was already a duplicate of a
still earlier evaluated item. -/
theorem c4_at_most_once_per_triple (stop : Nat → Bool) (outcome : Nat → EvalOutcome)
    (batch : List UpdatedDID) (i j : Nat) (di dj : UpdatedDID) (sti stj : ItemStep)
    (hij : i < j)
    (hdi : batch.get? i = some di) (hdj : batch.get? j = some dj)
    (hsti : (re_evaluator_batch stop outcome batch 0 []).steps.get? i = some sti)
    (hstj : (re_evaluator_batch stop outcome batch 0 []).steps.get? j = some stj)
    (htriple : dj.scope = di.scope ∧ dj.name = di.name
      ∧ dj.rule_evaluation_action = di.rule_evaluation_action) :
    stj = ItemStep.dupDelete ∧ stepEvaluated stj = false ∧ stepDeleted stj = true := by
  have hkeyeq : keyAct di = keyAct dj := by
    obtain ⟨h1, h2, h3⟩ := htriple
    simp [keyAct, didKey, h1, h2, h3]
  obtain ⟨dj2, hdj2, hiffj, _⟩ := steps_spec stop outcome batch 0 [] [] doneAbs_nil j stj hstj
  rw [hdj] at hdj2
  injection hdj2 with hdj2
  subst hdj2
  obtain ⟨di2, hdi2, hiffi, _⟩ := steps_spec stop outcome batch 0 [] [] doneAbs_nil i sti hsti
  rw [hdi] at hdi2
  injection hdi2 with hdi2
  subst hdi2
  have hstj_dup : stj = ItemStep.dupDelete := by
    apply hiffj.mpr
    by_cases hq : sti = ItemStep.dupDelete
    · have hr := hiffi.mp hq
      rcases hr with h | ⟨j0, dj0, stj0, hj0, hdj0, hstj0, hev0, hkey0⟩
      · exact absurd h (List.not_mem_nil _)
      · refine Or.inr ⟨j0, dj0, stj0, by omega, hdj0, hstj0, hev0, ?_⟩
        rw [hkey0]
        exact hkeyeq
    · have hev : stepEvaluated sti = true := by
        cases sti
        · exact absurd rfl hq
        all_goals rfl
      exact Or.inr ⟨i, di, sti, hij, hdi, hsti, hev, hkeyeq⟩
  refine ⟨hstj_dup, ?_, ?_⟩
  · rw [hstj_dup]
    rfl
  · rw [hstj_dup]
    rfl

/-- c4batch is the duplicate scenario of the spec: two identical
(A, X, attach) requests followed by one (B, Y, detach). -/
def c4batch : List UpdatedDID :=
  [⟨"A", "X", "attach", 1⟩, ⟨"A", "X", "attach", 2⟩, ⟨"B", "Y", "detach", 3⟩]

/-- C4 witness: on the concrete duplicate batch, item 1 repeats the triple
of item 0 and is deleted without evaluation. -/
theorem c4_at_most_once_per_triple_witness :
    (0 < 1)
    ∧ (c4batch.get? 0 = some (⟨"A", "X", "attach", 1⟩ : UpdatedDID))
    ∧ (c4batch.get? 1 = some (⟨"A", "X", "attach", 2⟩ : UpdatedDID))
    ∧ ((re_evaluator_batch (fun _ => false) (fun _ => EvalOutcome.success) c4batch 0
        []).steps.get? 0 = some ItemStep.evalOk)
    ∧ ((re_evaluator_batch (fun _ => false) (fun _ => EvalOutcome.success) c4batch 0
        []).steps.get? 1 = some ItemStep.dupDelete)
    ∧ (ItemStep.dupDelete = ItemStep.dupDelete ∧ stepEvaluated ItemStep.dupDelete = false
        ∧ stepDeleted ItemStep.dupDelete = true) :=
  ⟨by decide, by decide, by decide, by decide, by decide,
    c4_at_most_once_per_triple (fun _ => false) (fun _ => EvalOutcome.success) c4batch 0 1
      ⟨"A", "X", "attach", 1⟩ ⟨"A", "X", "attach", 2⟩ ItemStep.evalOk ItemStep.dupDelete
      (by decide) (by decide) (by decide) (by decide) (by decide)
      ⟨rfl, rfl, rfl⟩⟩

/-- c7batch is the five-item scenario batch of the spec. -/
def c7batch : List UpdatedDID :=
  [⟨"s", "n1", "attach", 1⟩, ⟨"s", "n2", "attach", 2⟩, ⟨"s", "n3", "attach", 3⟩,
   ⟨"s", "n4", "attach", 4⟩, ⟨"s", "n5", "attach", 5⟩]

/-- c7stop requests a stop from the third check (index 2) onwards. -/
def c7stop : Nat → Bool := fun i => decide (2 ≤ i)

/-- C7 witness: the theorem applied to a five-item batch with a stop
observed after processing items 0 and 1. -/
theorem c7_stop_mid_batch_witness :
    (1 + 1 < c7batch.length)
    ∧ (∀ i, i ≤ 1 → c7stop i = false)
    ∧ (c7stop (1 + 1) = true)
    ∧ (∀ i, i ≤ 1 → (fun _ => EvalOutcome.success) i ≠ EvalOutcome.unexpected)
    ∧ ((re_evaluator_batch c7stop (fun _ => EvalOutcome.success) c7batch 0 []).tag
        = BatchTag.stopped
      ∧ (re_evaluator_batch c7stop (fun _ => EvalOutcome.success) c7batch 0 []).steps.length
        = 1 + 1
      ∧ (∀ i st, (re_evaluator_batch c7stop (fun _ => EvalOutcome.success) c7batch 0
          []).steps.get? i = some st → i ≤ 1)
      ∧ ((re_evaluator_cycle false (Except.ok c7batch) c7stop (fun _ => EvalOutcome.success)
          none).1.flushed = true)
      ∧ ((re_evaluator_cycle false (Except.ok c7batch) c7stop (fun _ => EvalOutcome.success)
          none).1.committed = true)
      ∧ ((re_evaluator_cycle false (Except.ok c7batch) c7stop (fun _ => EvalOutcome.success)
          none).1.removed = true)) := by
  have hb : ∀ i, i ≤ 1 → c7stop i = false := by
    intro i hi
    exact decide_eq_false (by omega)
  have ho : ∀ i, i ≤ 1 → (fun _ => EvalOutcome.success) i ≠ EvalOutcome.unexpected := by
    intro i _
    exact fun h => EvalOutcome.noConfusion h
  exact ⟨by decide, hb, by decide, ho,
    c7_stop_mid_batch c7stop (fun _ => EvalOutcome.success) c7batch 1 (by decide) hb
      (by decide) ho⟩
